import Mathlib

/-!
Shallow embedding of the networked tank-simulator core (`src/tanks/`):
the entity model (`tank.py`, `projectile.py`), the server's session
registry, command buffer and broadcast sweep (`server.py`), and the AI
client's targeting logic (`client_ai.py`).

Python floats are modelled as rationals (ℚ); Python dicts as
association lists with first-match lookup, in-place replacement and
insertion-order append (the semantics of CPython dicts).  The
configuration module and the trigonometric functions of Python's math
library are external to the sources and are threaded through as
explicit parameters (`Config`, `Oracle`).
-/

namespace TankSim

/-- Planar vector over ℚ, modelling `pygame.math.Vector2` as the core uses it
(componentwise add/sub and scalar multiplication). -/
structure Vec2 where
  x : ℚ
  y : ℚ
  deriving DecidableEq

instance : Add Vec2 := ⟨fun a b => ⟨a.x + b.x, a.y + b.y⟩⟩

instance : Sub Vec2 := ⟨fun a b => ⟨a.x - b.x, a.y - b.y⟩⟩

instance : HMul Vec2 ℚ Vec2 := ⟨fun v c => ⟨v.x * c, v.y * c⟩⟩

@[simp]
theorem Vec2.add_def (a b : Vec2) : a + b = ⟨a.x + b.x, a.y + b.y⟩ := rfl

@[simp]
theorem Vec2.sub_def (a b : Vec2) : a - b = ⟨a.x - b.x, a.y - b.y⟩ := rfl

@[simp]
theorem Vec2.smul_def (v : Vec2) (c : ℚ) : v * c = ⟨v.x * c, v.y * c⟩ := rfl

/-- Modelled from the spec: the configuration module (`config`) consumed by the
core is not among the sources; §6 of the spec lists its constants as externally
supplied (tick/broadcast rates, client timeout, speeds, reload duration,
playfield bounds, colors).  `tankBody*` and `tankTurretLength` are integers
(the code floor-divides them with `//`). -/
structure Config where
  screenWidth : ℚ
  screenHeight : ℚ
  fieldMargin : ℚ
  tankBodyW : ℕ
  tankBodyH : ℕ
  tankTurretLength : ℕ
  projectileSpeed : ℚ
  projectileLifetime : ℚ
  clientTimeout : ℚ
  playerTankColor : ℤ × ℤ × ℤ
  enemyTankColor : ℤ × ℤ × ℤ
  turretColor : ℤ × ℤ × ℤ

/-- Modelled from the spec: Python's `math` library is external to the sources.
`cosDeg a` stands for `math.cos(math.radians(a))`, `sinDeg a` for
`math.sin(math.radians(a))`, and `atan2Deg y x` for
`math.degrees(math.atan2(y, x))`; the embedding is parametric in them. -/
structure Oracle where
  cosDeg : ℚ → ℚ
  sinDeg : ℚ → ℚ
  atan2Deg : ℚ → ℚ → ℚ

/-- Python's `%` on floats with the sign convention of the divisor:
`a % b = a - b * floor(a / b)`. -/
def pymod (a b : ℚ) : ℚ := a - b * (⌊a / b⌋ : ℚ)

/-- Projectile entity (`projectile.py`): position, velocity, remaining
lifetime. -/
structure Projectile where
  position : Vec2
  velocity : Vec2
  lifetime : ℚ
  deriving DecidableEq

/-- `Projectile.update`: advance by `velocity * dt`, decrement lifetime, and
report survival (`false` when the lifetime has run out or the position left
the playfield). -/
def Projectile.update (cfg : Config) (dt : ℚ) (p : Projectile) : Projectile × Bool :=
  let position := p.position + p.velocity * dt
  let lifetime := p.lifetime - dt
  let q : Projectile := { p with position := position, lifetime := lifetime }
  if lifetime ≤ 0 then (q, false)
  else if position.x < 0 ∨ position.x > cfg.screenWidth ∨
      position.y < 0 ∨ position.y > cfg.screenHeight then (q, false)
  else (q, true)

/-- `Projectile.from_tank`: spawn at `origin` with velocity along the bearing
`angle_deg` scaled by the configured projectile speed, with the configured
default lifetime. -/
def Projectile.from_tank (cfg : Config) (O : Oracle) (origin : Vec2) (angle_deg : ℚ) :
    Projectile :=
  let direction : Vec2 := ⟨O.cosDeg angle_deg, O.sinDeg angle_deg⟩
  { position := origin, velocity := direction * cfg.projectileSpeed,
    lifetime := cfg.projectileLifetime }

/-- Tank entity (`tank.py`): position, hull and turret angles, identity and
tuning constants, cooldown and owned projectiles. -/
structure Tank where
  position : Vec2
  angle : ℚ := 0
  turret_angle : ℚ := 0
  color : ℤ × ℤ × ℤ
  turret_color : ℤ × ℤ × ℤ
  identifier : Option String := none
  is_player : Bool := false
  cooldown : ℚ := 0
  projectiles : List Projectile := []
  move_speed : ℚ := 220
  rotation_speed : ℚ := 120
  turret_rotation_speed : ℚ := 160
  reload_time : ℚ := 0.8
  deriving DecidableEq

/-- `Tank.update(dt)`: decrement a positive cooldown (floored at 0) and keep
exactly the projectiles whose own update reports survival, in order. -/
def Tank.update (cfg : Config) (dt : ℚ) (t : Tank) : Tank :=
  let cooldown := if t.cooldown > 0 then max 0 (t.cooldown - dt) else t.cooldown
  let projectiles := t.projectiles.filterMap fun p =>
    let r := p.update cfg dt
    if r.2 then some r.1 else none
  { t with cooldown := cooldown, projectiles := projectiles }

/-- `Tank.forward_vector`: unit vector of the hull bearing. -/
def Tank.forward_vector (O : Oracle) (t : Tank) : Vec2 :=
  ⟨O.cosDeg t.angle, O.sinDeg t.angle⟩

/-- `Tank.turret_tip`: position offset along the turret bearing by half the
body height plus the turret length (both floor-divided as in the code). -/
def Tank.turret_tip (cfg : Config) (O : Oracle) (t : Tank) : Vec2 :=
  let arm : ℚ := ((cfg.tankBodyH / 2 + cfg.tankTurretLength : ℕ) : ℚ)
  t.position + ⟨O.cosDeg t.turret_angle * arm, O.sinDeg t.turret_angle * arm⟩

/-- Clamp inset used by `Tank._clamp_to_field`:
`margin = FIELD_MARGIN + TANK_BODY_SIZE[0] // 2`. -/
def Config.margin (cfg : Config) : ℚ :=
  cfg.fieldMargin + ((cfg.tankBodyW / 2 : ℕ) : ℚ)

/-- `Tank._clamp_to_field`: clamp the position into the playfield rectangle
inset by the field margin plus half the body width. -/
def Tank.clamp_to_field (cfg : Config) (t : Tank) : Tank :=
  let margin : ℚ := cfg.margin
  { t with position :=
      ⟨max margin (min (cfg.screenWidth - margin) t.position.x),
       max margin (min (cfg.screenHeight - margin) t.position.y)⟩ }

/-- `Tank.move_forward`: translate along the hull bearing by
`move_speed * dt`, then clamp into the field. -/
def Tank.move_forward (cfg : Config) (O : Oracle) (dt : ℚ) (t : Tank) : Tank :=
  Tank.clamp_to_field cfg { t with position := t.position + t.forward_vector O * (t.move_speed * dt) }

/-- `Tank.move_backward`: translate against the hull bearing, then clamp. -/
def Tank.move_backward (cfg : Config) (O : Oracle) (dt : ℚ) (t : Tank) : Tank :=
  Tank.clamp_to_field cfg { t with position := t.position - t.forward_vector O * (t.move_speed * dt) }

/-- `Tank.rotate_left`: hull angle decreases by `rotation_speed * dt`,
normalized modulo 360. -/
def Tank.rotate_left (dt : ℚ) (t : Tank) : Tank :=
  { t with angle := pymod (t.angle - t.rotation_speed * dt) 360 }

/-- `Tank.rotate_right`: hull angle increases, normalized modulo 360. -/
def Tank.rotate_right (dt : ℚ) (t : Tank) : Tank :=
  { t with angle := pymod (t.angle + t.rotation_speed * dt) 360 }

/-- `Tank.rotate_turret_left`: turret angle decreases, normalized modulo 360. -/
def Tank.rotate_turret_left (dt : ℚ) (t : Tank) : Tank :=
  { t with turret_angle := pymod (t.turret_angle - t.turret_rotation_speed * dt) 360 }

/-- `Tank.rotate_turret_right`: turret angle increases, normalized modulo 360. -/
def Tank.rotate_turret_right (dt : ℚ) (t : Tank) : Tank :=
  { t with turret_angle := pymod (t.turret_angle + t.turret_rotation_speed * dt) 360 }

/-- `Tank.fire`: no-op while the cooldown is positive; otherwise append a
projectile spawned from the turret tip along the turret bearing and reset the
cooldown to the reload time. -/
def Tank.fire (cfg : Config) (O : Oracle) (t : Tank) : Tank :=
  if t.cooldown > 0 then t
  else
    { t with
        projectiles :=
          t.projectiles ++ [Projectile.from_tank cfg O (t.turret_tip cfg O) t.turret_angle],
        cooldown := t.reload_time }

/-- Sample configuration used by concrete witnesses (the constants are
externally supplied, so any values exercise the code). -/
def cfgW : Config where
  screenWidth := 1280
  screenHeight := 720
  fieldMargin := 20
  tankBodyW := 40
  tankBodyH := 60
  tankTurretLength := 30
  projectileSpeed := 600
  projectileLifetime := 2
  clientTimeout := 10
  playerTankColor := (30, 120, 60)
  enemyTankColor := (200, 60, 60)
  turretColor := (220, 220, 220)

/-- Sample math oracle for witnesses: agrees with the real library at the
bearings the witnesses use (cos 0° = 1, sin 0° = 0, atan2(0, x>0) = 0°). -/
def oracleW : Oracle where
  cosDeg := fun _ => 1
  sinDeg := fun _ => 0
  atan2Deg := fun _ _ => 0

/-- Sample tank used by concrete witnesses. -/
def tankW : Tank where
  position := ⟨100, 100⟩
  color := (30, 120, 60)
  turret_color := (220, 220, 220)

/-- C1: `fire()` with positive cooldown changes nothing; with zero cooldown it
appends exactly one projectile, spawned at the turret tip with velocity along
the turret bearing at the configured projectile speed, and resets the cooldown
to the tank's reload time. -/
theorem fire_spec (cfg : Config) (O : Oracle) (t : Tank) :
    (0 < t.cooldown → t.fire cfg O = t) ∧
    (t.cooldown = 0 →
      t.fire cfg O =
        { t with
            projectiles :=
              t.projectiles ++ [Projectile.from_tank cfg O (t.turret_tip cfg O) t.turret_angle],
            cooldown := t.reload_time }) := by
  constructor
  · intro h
    simp [Tank.fire, h]
  · intro h
    simp [Tank.fire, h]

/-- C1 witness: at a concrete loaded tank `fire` is the identity, and at the
same tank with zero cooldown it appends one concrete projectile. -/
theorem fire_spec_witness :
    (Tank.fire cfgW oracleW { tankW with cooldown := 1 } = { tankW with cooldown := 1 }) ∧
    (Tank.fire cfgW oracleW tankW =
      { tankW with
          projectiles :=
            [Projectile.from_tank cfgW oracleW (tankW.turret_tip cfgW oracleW) tankW.turret_angle],
          cooldown := tankW.reload_time }) := by
  constructor
  · exact (fire_spec cfgW oracleW { tankW with cooldown := 1 }).1 (by norm_num)
  · have h := (fire_spec cfgW oracleW tankW).2 rfl
    simpa using h

/-- Rewriting Python float modulo through `Int.fract`. -/
theorem pymod_eq_fract (a b : ℚ) (hb : b ≠ 0) : pymod a b = b * Int.fract (a / b) := by
  unfold pymod Int.fract
  field_simp

/-- Python float modulo by a positive divisor is nonnegative. -/
theorem pymod_nonneg (a b : ℚ) (hb : 0 < b) : 0 ≤ pymod a b := by
  rw [pymod_eq_fract a b hb.ne.symm]
  exact mul_nonneg hb.le (Int.fract_nonneg _)

/-- Python float modulo by a positive divisor is below the divisor. -/
theorem pymod_lt (a b : ℚ) (hb : 0 < b) : pymod a b < b := by
  rw [pymod_eq_fract a b hb.ne.symm]
  calc b * Int.fract (a / b) < b * 1 :=
        (mul_lt_mul_left hb).mpr (Int.fract_lt_one _)
    _ = b := mul_one b

/-- Well-formedness invariant of a tank (spec §3): both angles stored
normalized into `[0, 360)` and the cooldown never negative. -/
def Tank.WF (t : Tank) : Prop :=
  0 ≤ t.angle ∧ t.angle < 360 ∧ 0 ≤ t.turret_angle ∧ t.turret_angle < 360 ∧ 0 ≤ t.cooldown

/-- C8: for nonnegative `dt` and a positive reload time, `update`, `fire`,
both moves and all four rotations preserve the invariant that the hull and
turret angles lie in `[0, 360)` and the cooldown is nonnegative. -/
theorem invariants_preserved (cfg : Config) (O : Oracle) (dt : ℚ) (t : Tank)
    (hdt : 0 ≤ dt) (hwf : t.WF) (hrel : 0 < t.reload_time) :
    (t.update cfg dt).WF ∧ (t.fire cfg O).WF ∧
    (t.move_forward cfg O dt).WF ∧ (t.move_backward cfg O dt).WF ∧
    (t.rotate_left dt).WF ∧ (t.rotate_right dt).WF ∧
    (t.rotate_turret_left dt).WF ∧ (t.rotate_turret_right dt).WF := by
  obtain ⟨h1, h2, h3, h4, h5⟩ := hwf
  have h360 : (0 : ℚ) < 360 := by norm_num
  refine ⟨?_, ?_, ?_, ?_, ?_, ?_, ?_, ?_⟩
  · refine ⟨h1, h2, h3, h4, ?_⟩
    show 0 ≤ if t.cooldown > 0 then max 0 (t.cooldown - dt) else t.cooldown
    split
    · exact le_max_left 0 _
    · exact h5
  · unfold Tank.fire
    split
    · exact ⟨h1, h2, h3, h4, h5⟩
    · exact ⟨h1, h2, h3, h4, hrel.le⟩
  · exact ⟨h1, h2, h3, h4, h5⟩
  · exact ⟨h1, h2, h3, h4, h5⟩
  · exact ⟨pymod_nonneg _ _ h360, pymod_lt _ _ h360, h3, h4, h5⟩
  · exact ⟨pymod_nonneg _ _ h360, pymod_lt _ _ h360, h3, h4, h5⟩
  · exact ⟨h1, h2, pymod_nonneg _ _ h360, pymod_lt _ _ h360, h5⟩
  · exact ⟨h1, h2, pymod_nonneg _ _ h360, pymod_lt _ _ h360, h5⟩

/-- C8 witness: the invariant is preserved by every operation on a concrete
well-formed tank with `dt = 1/2`. -/
theorem invariants_preserved_witness :
    (Tank.update cfgW (1/2) tankW).WF ∧ (Tank.fire cfgW oracleW tankW).WF ∧
    (Tank.move_forward cfgW oracleW (1/2) tankW).WF ∧
    (Tank.move_backward cfgW oracleW (1/2) tankW).WF ∧
    (Tank.rotate_left (1/2) tankW).WF ∧ (Tank.rotate_right (1/2) tankW).WF ∧
    (Tank.rotate_turret_left (1/2) tankW).WF ∧
    (Tank.rotate_turret_right (1/2) tankW).WF :=
  invariants_preserved cfgW oracleW (1/2) tankW (by norm_num)
    (by refine ⟨?_, ?_, ?_, ?_, ?_⟩ <;> norm_num [tankW])
    (by norm_num [tankW])

/-- C9: a projectile's update advances the position by `velocity * dt`,
decrements the lifetime by `dt`, and reports removal exactly when the updated
lifetime is ≤ 0 or the updated position leaves the playfield; a tank's update
retains exactly the projectiles whose own update survived. -/
theorem projectile_culling (cfg : Config) (dt : ℚ) (p : Projectile) (t : Tank)
    (hdt : 0 ≤ dt) :
    (p.update cfg dt).1.position = p.position + p.velocity * dt ∧
    (p.update cfg dt).1.lifetime = p.lifetime - dt ∧
    ((p.update cfg dt).2 = false ↔
      p.lifetime - dt ≤ 0 ∨
        ((p.position + p.velocity * dt).x < 0 ∨
          (p.position + p.velocity * dt).x > cfg.screenWidth ∨
          (p.position + p.velocity * dt).y < 0 ∨
          (p.position + p.velocity * dt).y > cfg.screenHeight)) ∧
    (∀ q : Projectile,
      q ∈ (t.update cfg dt).projectiles ↔
        ∃ r ∈ t.projectiles, r.update cfg dt = (q, true)) := by
  refine ⟨?_, ?_, ?_, ?_⟩
  · unfold Projectile.update
    dsimp only
    split
    · rfl
    · split <;> rfl
  · unfold Projectile.update
    dsimp only
    split
    · rfl
    · split <;> rfl
  · unfold Projectile.update
    dsimp only
    split
    · rename_i hlt
      exact iff_of_true rfl (Or.inl hlt)
    · rename_i hlt
      split
      · rename_i hout
        exact iff_of_true rfl (Or.inr hout)
      · rename_i hout
        refine iff_of_false (by simp) ?_
        rintro (h | h)
        · exact hlt h
        · exact hout h
  · intro q
    simp only [Tank.update, List.mem_filterMap]
    constructor
    · rintro ⟨r, hr, hf⟩
      refine ⟨r, hr, ?_⟩
      by_cases h2 : (r.update cfg dt).2
      · simp only [h2, if_true] at hf
        have h1 : (r.update cfg dt).1 = q := Option.some.inj hf
        calc r.update cfg dt = ((r.update cfg dt).1, (r.update cfg dt).2) := rfl
          _ = (q, true) := by rw [h1, h2]
      · simp [h2] at hf
    · rintro ⟨r, hr, hrq⟩
      refine ⟨r, hr, ?_⟩
      rw [hrq]
      simp

/-- Sample projectile used by concrete witnesses. -/
def projW : Projectile := ⟨⟨100, 100⟩, ⟨600, 0⟩, 2⟩

/-- Sample tank owning one projectile, used by concrete witnesses. -/
def tankPW : Tank := { tankW with projectiles := [projW] }

/-- C9 witness: a concrete projectile with `dt = 1` moves by its velocity,
loses one second of lifetime, and the owning tank retains exactly the
surviving projectiles. -/
theorem projectile_culling_witness :
    (Projectile.update cfgW 1 projW).1.position = projW.position + projW.velocity * (1 : ℚ) ∧
    (Projectile.update cfgW 1 projW).1.lifetime = projW.lifetime - 1 ∧
    ((Projectile.update cfgW 1 projW).2 = false ↔
      projW.lifetime - 1 ≤ 0 ∨
        ((projW.position + projW.velocity * (1 : ℚ)).x < 0 ∨
          (projW.position + projW.velocity * (1 : ℚ)).x > cfgW.screenWidth ∨
          (projW.position + projW.velocity * (1 : ℚ)).y < 0 ∨
          (projW.position + projW.velocity * (1 : ℚ)).y > cfgW.screenHeight)) ∧
    (∀ q : Projectile,
      q ∈ (Tank.update cfgW 1 tankPW).projectiles ↔
        ∃ r ∈ tankPW.projectiles, r.update cfgW 1 = (q, true)) :=
  projectile_culling cfgW 1 projW tankPW (by norm_num)

/-- Unfolding lemma: the position after `move_forward` is the translated
position clamped componentwise into the inset playfield rectangle. -/
theorem move_forward_position (cfg : Config) (O : Oracle) (dt : ℚ) (t : Tank) :
    (t.move_forward cfg O dt).position =
      ⟨max cfg.margin (min (cfg.screenWidth - cfg.margin)
          (t.position + t.forward_vector O * (t.move_speed * dt)).x),
        max cfg.margin (min (cfg.screenHeight - cfg.margin)
          (t.position + t.forward_vector O * (t.move_speed * dt)).y)⟩ := rfl

/-- C7: a tank at (100,100) with hull angle 0 and move speed 220 moving
forward for one second lands at (320,100) when that point is inside the clamp
bounds; and whenever the translated position leaves the inset playfield
rectangle, the corresponding coordinate is set to the violated bound exactly. -/
theorem move_forward_spec (cfg : Config) (O : Oracle)
    (hcos : O.cosDeg 0 = 1) (hsin : O.sinDeg 0 = 0) :
    (∀ t : Tank, t.position = ⟨100, 100⟩ → t.angle = 0 → t.move_speed = 220 →
      cfg.margin ≤ 320 → 320 ≤ cfg.screenWidth - cfg.margin →
      cfg.margin ≤ 100 → 100 ≤ cfg.screenHeight - cfg.margin →
      (t.move_forward cfg O 1).position = ⟨320, 100⟩) ∧
    (∀ (t : Tank) (dt : ℚ),
      ((t.position + t.forward_vector O * (t.move_speed * dt)).x < cfg.margin →
        (t.move_forward cfg O dt).position.x = cfg.margin) ∧
      (cfg.screenWidth - cfg.margin <
          (t.position + t.forward_vector O * (t.move_speed * dt)).x →
        cfg.margin ≤ cfg.screenWidth - cfg.margin →
        (t.move_forward cfg O dt).position.x = cfg.screenWidth - cfg.margin) ∧
      ((t.position + t.forward_vector O * (t.move_speed * dt)).y < cfg.margin →
        (t.move_forward cfg O dt).position.y = cfg.margin) ∧
      (cfg.screenHeight - cfg.margin <
          (t.position + t.forward_vector O * (t.move_speed * dt)).y →
        cfg.margin ≤ cfg.screenHeight - cfg.margin →
        (t.move_forward cfg O dt).position.y = cfg.screenHeight - cfg.margin)) := by
  constructor
  · intro t hpos hangle hspeed hm1 hm2 hm3 hm4
    have hx : (t.position + t.forward_vector O * (t.move_speed * 1)).x = 320 := by
      simp [Tank.forward_vector, hpos, hangle, hspeed, hcos]
      norm_num
    have hy : (t.position + t.forward_vector O * (t.move_speed * 1)).y = 100 := by
      simp [Tank.forward_vector, hpos, hangle, hspeed, hsin]
    rw [move_forward_position, hx, hy, min_eq_right hm2, max_eq_right hm1,
      min_eq_right hm4, max_eq_right hm3]
  · intro t dt
    refine ⟨?_, ?_, ?_, ?_⟩
    · intro hlow
      rw [move_forward_position]
      exact max_eq_left ((min_le_right _ _).trans hlow.le)
    · intro hhigh hmle
      rw [move_forward_position]
      dsimp only
      rw [min_eq_left hhigh.le]
      exact max_eq_right hmle
    · intro hlow
      rw [move_forward_position]
      exact max_eq_left ((min_le_right _ _).trans hlow.le)
    · intro hhigh hmle
      rw [move_forward_position]
      dsimp only
      rw [min_eq_left hhigh.le]
      exact max_eq_right hmle

/-- C7 witness: with the sample configuration (margin 40, field 1280×720) the
concrete tank at (100,100) ends at (320,100), and a translation past the left
bound is clamped to the margin exactly. -/
theorem move_forward_spec_witness :
    (Tank.move_forward cfgW oracleW 1 tankW).position = Vec2.mk 320 100 ∧
    (Tank.move_forward cfgW oracleW (-1) tankW).position.x = cfgW.margin := by
  have h := move_forward_spec cfgW oracleW rfl rfl
  constructor
  · exact h.1 tankW rfl rfl rfl (by norm_num [Config.margin, cfgW])
      (by norm_num [Config.margin, cfgW]) (by norm_num [Config.margin, cfgW])
      (by norm_num [Config.margin, cfgW])
  · refine (h.2 tankW (-1)).1 ?_
    norm_num [tankW, oracleW, Tank.forward_vector, Config.margin, cfgW]

/-- Modelled from the spec: `ProjectileState`, the serialized snapshot form of
a projectile, is imported by `tank.py` but its definition is not among the
sources; §4.4 gives its wire record as `{x, y, ...}`. -/
structure ProjectileState where
  x : ℚ
  y : ℚ
  deriving DecidableEq

/-- Modelled from the spec: the wire record of a `ProjectileState`. -/
structure ProjectileStateDict where
  x : ℚ
  y : ℚ
  deriving DecidableEq

/-- Modelled from the spec: serialization of a `ProjectileState`. -/
def ProjectileState.to_dict (p : ProjectileState) : ProjectileStateDict := ⟨p.x, p.y⟩

/-- Modelled from the spec: deserialization of a `ProjectileState`. -/
def ProjectileState.from_dict (d : ProjectileStateDict) : ProjectileState := ⟨d.x, d.y⟩

/-- Modelled from the spec: `Projectile.to_state`, the snapshot of a live
projectile, used by `Tank.to_state`. -/
def Projectile.to_state (p : Projectile) : ProjectileState := ⟨p.position.x, p.position.y⟩

/-- `TankState` (`tank.py`): the serializable snapshot of one tank. -/
structure TankState where
  identifier : String
  team : String
  x : ℚ
  y : ℚ
  angle : ℚ
  turret_angle : ℚ
  color : ℤ × ℤ × ℤ
  turret_color : ℤ × ℤ × ℤ
  is_player : Bool := false
  projectiles : List ProjectileState := []
  deriving DecidableEq

/-- Wire record produced by `TankState.to_dict` and consumed by
`TankState.from_dict`.  Fields that `from_dict` reads with `.get(...)` and a
default are optional here (absent ⇒ `none`); colors travel as lists. -/
structure TankStateDict where
  id : String
  team : String
  x : ℚ
  y : ℚ
  angle : ℚ
  turret_angle : ℚ
  color : Option (List ℤ)
  turret_color : Option (List ℤ)
  is_player : Option Bool
  projectiles : Option (List ProjectileStateDict)
  deriving DecidableEq

/-- `TankState.to_dict`: every field is emitted, colors as 3-element lists and
the projectile list elementwise (an empty list is emitted as an empty list,
never omitted). -/
def TankState.to_dict (s : TankState) : TankStateDict where
  id := s.identifier
  team := s.team
  x := s.x
  y := s.y
  angle := s.angle
  turret_angle := s.turret_angle
  color := some [s.color.1, s.color.2.1, s.color.2.2]
  turret_color := some [s.turret_color.1, s.turret_color.2.1, s.turret_color.2.2]
  is_player := some s.is_player
  projectiles := some (s.projectiles.map ProjectileState.to_dict)

/-- Python's `tuple(...)` applied to a color list, landing in the declared
`tuple[int, int, int]` type: a 3-element list becomes the triple; any other
length would fall outside that type and is modelled as `none`. -/
def tripleOfList : List ℤ → Option (ℤ × ℤ × ℤ)
  | [a, b, c] => some (a, b, c)
  | _ => none

/-- `TankState.from_dict`: required fields are read directly; `color`,
`turret_color`, `is_player` and `projectiles` fall back to defaults when
absent (`PLAYER_TANK_COLOR`, `TURRET_COLOR`, `False`, `[]`). -/
def TankState.from_dict (cfg : Config) (d : TankStateDict) : Option TankState :=
  match (match d.color with
         | none => some cfg.playerTankColor
         | some l => tripleOfList l),
        (match d.turret_color with
         | none => some cfg.turretColor
         | some l => tripleOfList l) with
  | some color, some turret_color =>
      some { identifier := d.id, team := d.team, x := d.x, y := d.y,
             angle := d.angle, turret_angle := d.turret_angle,
             color := color, turret_color := turret_color,
             is_player := d.is_player.getD false,
             projectiles := (d.projectiles.getD []).map ProjectileState.from_dict }
  | _, _ => none

/-- C6: serializing a `TankState` and deserializing the result restores every
field, including the nested projectile list; the projectile list is always
emitted (an empty list serializes to an empty list, not an absent field). -/
theorem tank_state_round_trip (cfg : Config) (s : TankState) :
    TankState.from_dict cfg s.to_dict = some s ∧
    s.to_dict.projectiles = some (s.projectiles.map ProjectileState.to_dict) := by
  have hmap : ∀ l : List ProjectileState,
      (l.map ProjectileState.to_dict).map ProjectileState.from_dict = l := by
    intro l
    induction l with
    | nil => rfl
    | cons p rest ih => simp [ih, ProjectileState.to_dict, ProjectileState.from_dict]
  obtain ⟨sid, steam, sx, sy, sangle, sturret, ⟨c1, c2, c3⟩, ⟨u1, u2, u3⟩, sp, sprojs⟩ := s
  refine ⟨?_, rfl⟩
  simp [TankState.to_dict, TankState.from_dict, tripleOfList, hmap]

section AssocList

variable {α β : Type} [DecidableEq α]

/-- First-match lookup in an association list (Python `dict[k]` / `dict.get`). -/
def alookup : List (α × β) → α → Option β
  | [], _ => none
  | (k, v) :: rest, k0 => if k0 = k then some v else alookup rest k0

/-- Python dict assignment `d[k] = v`: replace the value in place when the key
is present (keeping its position), otherwise append in insertion order. -/
def aset : List (α × β) → α → β → List (α × β)
  | [], k, v => [(k, v)]
  | (k0, v0) :: rest, k, v =>
      if k = k0 then (k0, v) :: rest else (k0, v0) :: aset rest k v

/-- Python `del d[k]`: drop the entry with the given key. -/
def aerase : List (α × β) → α → List (α × β)
  | [], _ => []
  | (k0, v0) :: rest, k => if k = k0 then rest else (k0, v0) :: aerase rest k

/-- Python `dict.setdefault(k, v)`: append `(k, v)` when `k` is absent. -/
def asetdefault (l : List (α × β)) (k : α) (v : β) : List (α × β) :=
  match alookup l k with
  | some _ => l
  | none => l ++ [(k, v)]

theorem alookup_aset (l : List (α × β)) (k k0 : α) (v : β) :
    alookup (aset l k v) k0 = if k0 = k then some v else alookup l k0 := by
  induction l with
  | nil => simp [aset, alookup]
  | cons hd rest ih =>
      obtain ⟨k1, v1⟩ := hd
      by_cases h1 : k = k1
      · subst h1
        by_cases h0 : k0 = k <;> simp [aset, alookup, h0]
      · by_cases h0 : k0 = k1
        · subst h0
          simp [aset, alookup, h1, Ne.symm h1]
        · by_cases h2 : k0 = k
          · subst h2
            simp [aset, alookup, h0, h1, ih]
          · simp [aset, alookup, h0, h1, h2, ih]

theorem alookup_asetdefault_of_some (l : List (α × β)) (k : α) (v w : β)
    (h : alookup l k = some w) : asetdefault l k v = l := by
  simp [asetdefault, h]

theorem alookup_append_self (l : List (α × β)) (k : α) (v : β)
    (h : alookup l k = none) : alookup (l ++ [(k, v)]) k = some v := by
  induction l with
  | nil => simp [alookup]
  | cons hd rest ih =>
      obtain ⟨k1, v1⟩ := hd
      by_cases h0 : k = k1
      · simp [alookup, h0] at h
      · simp [alookup, h0] at h ⊢
        exact ih h

theorem alookup_append_ne (l : List (α × β)) (k k0 : α) (v : β)
    (h : k0 ≠ k) : alookup (l ++ [(k, v)]) k0 = alookup l k0 := by
  induction l with
  | nil => simp [alookup, h]
  | cons hd rest ih =>
      obtain ⟨k1, v1⟩ := hd
      by_cases h0 : k0 = k1
      · simp [alookup, h0]
      · simp only [List.cons_append, alookup, if_neg h0]
        exact ih

theorem alookup_asetdefault_ne (l : List (α × β)) (k k0 : α) (v : β)
    (h : k0 ≠ k) : alookup (asetdefault l k v) k0 = alookup l k0 := by
  unfold asetdefault
  cases hl : alookup l k with
  | some w => rfl
  | none => exact alookup_append_ne l k k0 v h

theorem alookup_aerase_ne (l : List (α × β)) (k k0 : α) (h : k0 ≠ k) :
    alookup (aerase l k) k0 = alookup l k0 := by
  induction l with
  | nil => rfl
  | cons hd rest ih =>
      obtain ⟨k1, v1⟩ := hd
      by_cases h1 : k = k1
      · subst h1
        simp [aerase, alookup, h]
      · by_cases h0 : k0 = k1 <;> simp [aerase, alookup, h0, h1, ih]

theorem alookup_of_mem_nodup (l : List (α × β)) (a : α) (c : β)
    (hmem : (a, c) ∈ l) (hnd : (l.map Prod.fst).Nodup) : alookup l a = some c := by
  induction l with
  | nil => simp at hmem
  | cons hd rest ih =>
      obtain ⟨k1, v1⟩ := hd
      simp only [List.map_cons, List.nodup_cons] at hnd
      rcases List.mem_cons.mp hmem with heq | hrest
      · injection heq with h1 h2
        subst h1
        subst h2
        simp [alookup]
      · by_cases h0 : a = k1
        · exfalso
          exact hnd.1 (h0 ▸ (List.mem_map.mpr ⟨(a, c), hrest, rfl⟩))
        · simp [alookup, h0]
          exact ih hrest hnd.2

theorem mem_keys_of_alookup_some (l : List (α × β)) (k : α) (w : β)
    (h : alookup l k = some w) : k ∈ l.map Prod.fst := by
  induction l with
  | nil => simp [alookup] at h
  | cons hd rest ih =>
      obtain ⟨k1, v1⟩ := hd
      by_cases h1 : k = k1
      · simp [h1]
      · simp only [alookup, if_neg h1] at h
        simp [ih h]

theorem alookup_aerase_self (l : List (α × β)) (k : α)
    (hnd : (l.map Prod.fst).Nodup) : alookup (aerase l k) k = none := by
  induction l with
  | nil => rfl
  | cons hd rest ih =>
      obtain ⟨k1, v1⟩ := hd
      simp only [List.map_cons, List.nodup_cons] at hnd
      by_cases h1 : k = k1
      · subst h1
        simp only [aerase, if_pos rfl]
        cases hr : alookup rest k with
        | none => exact hr
        | some w => exact absurd (mem_keys_of_alookup_some rest k w hr) hnd.1
      · simp only [aerase, if_neg h1, alookup]
        exact ih hnd.2

theorem aerase_keys_sublist (l : List (α × β)) (k : α) :
    ((aerase l k).map Prod.fst).Sublist (l.map Prod.fst) := by
  induction l with
  | nil => simp [aerase]
  | cons hd rest ih =>
      obtain ⟨k1, v1⟩ := hd
      by_cases h1 : k = k1
      · simp only [aerase, if_pos h1, List.map_cons]
        exact (List.sublist_cons_self _ _)
      · simp only [aerase, if_neg h1, List.map_cons]
        exact ih.cons₂ k1

theorem aerase_keys_nodup (l : List (α × β)) (k : α)
    (hnd : (l.map Prod.fst).Nodup) : ((aerase l k).map Prod.fst).Nodup :=
  hnd.sublist (aerase_keys_sublist l k)

theorem foldl_aerase_lookup_not_mem (S : List α) (l : List (α × β)) (a : α)
    (ha : a ∉ S) : alookup (S.foldl aerase l) a = alookup l a := by
  induction S generalizing l with
  | nil => rfl
  | cons k S ih =>
      simp only [List.mem_cons, not_or] at ha
      rw [List.foldl_cons, ih (aerase l k) ha.2, alookup_aerase_ne l k a ha.1]

theorem foldl_aerase_lookup_mem (S : List α) (l : List (α × β)) (a : α)
    (hnd : (l.map Prod.fst).Nodup) (ha : a ∈ S) :
    alookup (S.foldl aerase l) a = none := by
  induction S generalizing l with
  | nil => simp at ha
  | cons k S ih =>
      have hnd2 : ((aerase l k).map Prod.fst).Nodup := aerase_keys_nodup l k hnd
      rw [List.foldl_cons]
      by_cases hS : a ∈ S
      · exact ih (aerase l k) hnd2 hS
      · rcases List.mem_cons.mp ha with hak | hak
        · subst hak
          rw [foldl_aerase_lookup_not_mem S (aerase l a) a hS]
          exact alookup_aerase_self l a hnd
        · exact absurd hak hS

theorem foldl_aerase_cons (S : List α) (x : α × β) (rest : List (α × β))
    (hx : x.1 ∉ S) : S.foldl aerase (x :: rest) = x :: S.foldl aerase rest := by
  induction S generalizing rest with
  | nil => rfl
  | cons k S ih =>
      simp only [List.mem_cons, not_or] at hx
      obtain ⟨x1, x2⟩ := x
      simp only [List.foldl_cons]
      rw [show aerase ((x1, x2) :: rest) k = (x1, x2) :: aerase rest k by
        simp [aerase, Ne.symm hx.1]]
      exact ih (aerase rest k) hx.2

theorem foldl_aerase_filter (p : α × β → Bool) (l : List (α × β))
    (hnd : (l.map Prod.fst).Nodup) :
    ((l.filter p).map Prod.fst).foldl aerase l = l.filter (fun x => !p x) := by
  induction l with
  | nil => rfl
  | cons x rest ih =>
      simp only [List.map_cons, List.nodup_cons] at hnd
      by_cases hp : p x
      · rw [show (x :: rest).filter p = x :: rest.filter p by simp [List.filter_cons, hp]]
        rw [show ((x :: rest.filter p).map Prod.fst) =
              x.1 :: (rest.filter p).map Prod.fst from rfl]
        rw [List.foldl_cons]
        rw [show aerase (x :: rest) x.1 = rest by
          obtain ⟨x1, x2⟩ := x
          simp [aerase]]
        rw [ih hnd.2]
        rw [show (x :: rest).filter (fun y => !p y) = rest.filter (fun y => !p y) by
          simp [List.filter_cons, hp]]
      · have hx : x.1 ∉ ((rest.filter p).map Prod.fst) := by
          intro hmem
          rcases List.mem_map.mp hmem with ⟨y, hy, hyx⟩
          exact hnd.1 (hyx ▸ List.mem_map.mpr ⟨y, (List.mem_filter.mp hy).1, rfl⟩)
        have hp2 : p x = false := by simpa using hp
        rw [show (x :: rest).filter p = rest.filter p by simp [List.filter_cons, hp2]]
        rw [foldl_aerase_cons _ x rest hx, ih hnd.2]
        rw [show (x :: rest).filter (fun y => !p y) = x :: rest.filter (fun y => !p y) by
          simp [List.filter_cons, hp2]]

end AssocList

/-- Remote endpoint of a client, the key of the session registry
(`(host, port)` of the datagram sender). -/
abbrev Address := String × ℕ

/-- `ClientInfo` (`server.py`): one session — remote address, claimed team,
last-seen time. -/
structure ClientInfo where
  address : Address
  team : String
  last_seen : ℚ
  deriving DecidableEq

/-- Command record: the seven boolean intents buffered per tank identifier. -/
structure Control where
  move_forward : Bool
  move_backward : Bool
  rotate_left : Bool
  rotate_right : Bool
  turret_left : Bool
  turret_right : Bool
  fire : Bool
  deriving DecidableEq

/-- All-false command: what an absent buffer entry (`{}` from
`team_controls.get(..., {})`) applies. -/
def Control.idle : Control := ⟨false, false, false, false, false, false, false⟩

/-- Wire form of one tank's command inside an `input` message: every intent is
optional (read with `control.get(intent, False)`). -/
structure ControlMsg where
  move_forward : Option Bool := none
  move_backward : Option Bool := none
  rotate_left : Option Bool := none
  rotate_right : Option Bool := none
  turret_left : Option Bool := none
  turret_right : Option Bool := none
  fire : Option Bool := none
  deriving DecidableEq

/-- Completion of a wire command into the stored record: each missing intent
defaults to false. -/
def ControlMsg.complete (c : ControlMsg) : Control :=
  ⟨c.move_forward.getD false, c.move_backward.getD false, c.rotate_left.getD false,
   c.rotate_right.getD false, c.turret_left.getD false, c.turret_right.getD false,
   c.fire.getD false⟩

/-- An `input` message: claimed team (`message.get("team")`) and a commands
object keyed by tank identifier (`message.get("commands", {})`). -/
structure InputMsg where
  team : Option String := none
  commands : List (String × ControlMsg) := []

/-- A `join` message: the requested team (`message.get("team", "player")`). -/
structure JoinMsg where
  team : Option String := none

/-- Reply sent by `_handle_join`: an error record for an unknown team, or the
joined team with the identifiers of its tanks. -/
inductive JoinReply where
  | error (message : String)
  | joined (team : String) (tanks : List (Option String))
  deriving DecidableEq

/-- The server's mutable state (`TankGameServer`): session registry keyed by
address, tank roster keyed by team, and the per-team command buffer. -/
structure ServerState where
  clients : List (Address × ClientInfo)
  team_tanks : List (String × List Tank)
  controls : List (String × List (String × Control))

/-- `TankGameServer._handle_join`: an unknown team gets an error reply and no
state change; a valid team creates or replaces the session keyed by the
sender's address and is told the identifiers of its team's tanks. -/
def handle_join (now : ℚ) (msg : JoinMsg) (addr : Address) (s : ServerState) :
    ServerState × JoinReply :=
  let team := msg.team.getD "player"
  match alookup s.team_tanks team with
  | none => (s, .error ("unknown team " ++ team))
  | some tanks =>
      let client : ClientInfo := ⟨addr, team, now⟩
      ({ s with clients := aset s.clients addr client },
        .joined team (tanks.map (·.identifier)))

/-- `TankGameServer._handle_input`: dropped (state unchanged, nothing sent)
when the sender has no session or the claimed team differs from the session's;
otherwise each named tank's buffer entry is overwritten with the completed
command and the session's last-seen time becomes `now`. -/
def handle_input (now : ℚ) (msg : InputMsg) (addr : Address) (s : ServerState) :
    ServerState :=
  match alookup s.clients addr with
  | none => s
  | some client =>
      if msg.team ≠ some client.team then s
      else
        let controls0 := asetdefault s.controls client.team []
        let tc0 := (alookup controls0 client.team).getD []
        let tc1 := msg.commands.foldl (fun tc kc => aset tc kc.1 kc.2.complete) tc0
        { s with
            controls := aset controls0 client.team tc1,
            clients := aset s.clients addr { client with last_seen := now } }

/-- One tank's command application inside `_apply_controls`: each true intent
invokes the corresponding entity operation, in the order of the code. -/
def apply_control_to_tank (cfg : Config) (O : Oracle) (dt : ℚ) (c : Control)
    (t : Tank) : Tank :=
  let t1 := if c.move_forward then t.move_forward cfg O dt else t
  let t2 := if c.move_backward then t1.move_backward cfg O dt else t1
  let t3 := if c.rotate_left then t2.rotate_left dt else t2
  let t4 := if c.rotate_right then t3.rotate_right dt else t3
  let t5 := if c.turret_left then t4.rotate_turret_left dt else t4
  let t6 := if c.turret_right then t5.rotate_turret_right dt else t5
  if c.fire then t6.fire cfg O else t6

/-- `TankGameServer._apply_controls`: every tank is driven by the buffered
command found under its identifier (an absent entry acts as all-false). -/
def apply_controls (cfg : Config) (O : Oracle) (dt : ℚ) (s : ServerState) :
    ServerState :=
  { s with
      team_tanks := s.team_tanks.map fun tt =>
        let team_controls := (alookup s.controls tt.1).getD []
        (tt.1, tt.2.map fun t =>
          apply_control_to_tank cfg O dt
            ((alookup team_controls (t.identifier.getD "")).getD Control.idle) t) }

/-- `TankGameServer._update_world`: advance every tank by `dt`. -/
def update_world (cfg : Config) (dt : ℚ) (s : ServerState) : ServerState :=
  { s with team_tanks := s.team_tanks.map fun tt => (tt.1, tt.2.map (Tank.update cfg dt)) }

/-- `Tank.to_state`: snapshot of one tank, tagging it with its team. -/
def Tank.to_state (team : String) (t : Tank) : TankState where
  identifier := t.identifier.getD ""
  team := team
  x := t.position.x
  y := t.position.y
  angle := t.angle
  turret_angle := t.turret_angle
  color := t.color
  turret_color := t.turret_color
  is_player := t.is_player
  projectiles := t.projectiles.map Projectile.to_state

/-- `TankGameServer._collect_state`: the full snapshot, every tank of every
team in roster order. -/
def collect_state (s : ServerState) : List TankState :=
  (s.team_tanks.map fun tt => tt.2.map (Tank.to_state tt.1)).flatten

/-- `TankGameServer._broadcast_state`: one pass over the registry sends the
snapshot of the current state to every session whose last-seen age is within
the timeout and collects the others as expired; the expired sessions are then
deleted.  Returns the new state and the performed sends. -/
def broadcast_state (cfg : Config) (now : ℚ) (s : ServerState) :
    ServerState × List (Address × List TankState) :=
  let stale := fun (ac : Address × ClientInfo) =>
    decide (now - ac.2.last_seen > cfg.clientTimeout)
  let expired := (s.clients.filter stale).map Prod.fst
  let sends := (s.clients.filter fun ac => !stale ac).map
    fun ac => (ac.1, collect_state s)
  ({ s with clients := expired.foldl aerase s.clients }, sends)

/-- `TankGameServer.__init__` / `_create_teams`: empty registry, five tanks
per team facing each other, and an empty command buffer per team. -/
def init_server (cfg : Config) : ServerState :=
  let spacing := (cfg.screenWidth - 2 * cfg.fieldMargin) / 6
  let y_player := cfg.screenHeight * 0.75
  let y_enemy := cfg.screenHeight * 0.25
  { clients := [],
    team_tanks :=
      [("player", (List.range 5).map fun i =>
          { position := ⟨cfg.fieldMargin + spacing * ((i : ℚ) + 1), y_player⟩,
            angle := 270, turret_angle := 270,
            color := cfg.playerTankColor, turret_color := cfg.turretColor,
            identifier := some ("player_" ++ toString i),
            is_player := decide (i = 0) }),
        ("enemy", (List.range 5).map fun i =>
          { position := ⟨cfg.fieldMargin + spacing * ((i : ℚ) + 1), y_enemy⟩,
            angle := 90, turret_angle := 90,
            color := cfg.enemyTankColor, turret_color := cfg.enemyTankColor,
            identifier := some ("enemy_" ++ toString i) })],
    controls := [("player", []), ("enemy", [])] }

section AssocFold

variable {α β γ : Type} [DecidableEq α]

theorem alookup_asetdefault_self (l : List (α × β)) (k : α) (v : β) :
    alookup (asetdefault l k v) k = some ((alookup l k).getD v) := by
  unfold asetdefault
  cases hl : alookup l k with
  | some w => simp [hl]
  | none => simp [alookup_append_self l k v hl]

theorem alookup_foldl_aset_not_mem (g : γ → β) (cmds : List (α × γ))
    (tc0 : List (α × β)) (tid : α) (h : tid ∉ cmds.map Prod.fst) :
    alookup (cmds.foldl (fun tc kc => aset tc kc.1 (g kc.2)) tc0) tid =
      alookup tc0 tid := by
  induction cmds generalizing tc0 with
  | nil => rfl
  | cons kc rest ih =>
      simp only [List.map_cons, List.mem_cons, not_or] at h
      rw [List.foldl_cons, ih _ h.2, alookup_aset, if_neg h.1]

theorem alookup_foldl_aset_of_mem (g : γ → β) (cmds : List (α × γ))
    (tc0 : List (α × β)) (tid : α) (cm : γ)
    (hnd : (cmds.map Prod.fst).Nodup) (hmem : (tid, cm) ∈ cmds) :
    alookup (cmds.foldl (fun tc kc => aset tc kc.1 (g kc.2)) tc0) tid =
      some (g cm) := by
  induction cmds generalizing tc0 with
  | nil => simp at hmem
  | cons kc rest ih =>
      simp only [List.map_cons, List.nodup_cons] at hnd
      rcases List.mem_cons.mp hmem with heq | hrest
      · subst heq
        rw [List.foldl_cons, alookup_foldl_aset_not_mem g rest _ tid hnd.1,
          alookup_aset, if_pos rfl]
      · rw [List.foldl_cons]
        exact ih _ hnd.2 hrest

theorem alookup_foldl_aset_isSome (g : γ → β) (cmds : List (α × γ))
    (tc0 : List (α × β)) (tid : α) (h : (alookup tc0 tid).isSome) :
    (alookup (cmds.foldl (fun tc kc => aset tc kc.1 (g kc.2)) tc0) tid).isSome := by
  induction cmds generalizing tc0 with
  | nil => exact h
  | cons kc rest ih =>
      rw [List.foldl_cons]
      refine ih _ ?_
      rw [alookup_aset]
      by_cases he : tid = kc.1 <;> simp [he, h]

end AssocFold

/-- Unfolding lemma: clients surviving a broadcast are the registry after
erasing every stale key. -/
theorem broadcast_state_clients (cfg : Config) (now : ℚ) (s : ServerState) :
    (broadcast_state cfg now s).1.clients =
      ((s.clients.filter fun ac =>
          decide (now - ac.2.last_seen > cfg.clientTimeout)).map Prod.fst).foldl
        aerase s.clients := rfl

/-- Unfolding lemma: a broadcast sends the snapshot of the pre-sweep state to
exactly the non-stale sessions. -/
theorem broadcast_state_sends (cfg : Config) (now : ℚ) (s : ServerState) :
    (broadcast_state cfg now s).2 =
      (s.clients.filter fun ac =>
          !decide (now - ac.2.last_seen > cfg.clientTimeout)).map
        fun ac => (ac.1, collect_state s) := rfl

/-- C3: after one broadcast-and-sweep at time `now`, every session older than
the timeout is gone from the registry and received no send, every live
session received the snapshot and keeps its entry, and an immediate second
sweep at the same time removes nothing. -/
theorem broadcast_sweep_spec (cfg : Config) (now : ℚ) (s : ServerState)
    (hnd : (s.clients.map Prod.fst).Nodup) :
    (∀ a c, (a, c) ∈ s.clients → now - c.last_seen > cfg.clientTimeout →
      alookup (broadcast_state cfg now s).1.clients a = none ∧
      ∀ snap, (a, snap) ∉ (broadcast_state cfg now s).2) ∧
    (∀ a c, (a, c) ∈ s.clients → ¬(now - c.last_seen > cfg.clientTimeout) →
      alookup (broadcast_state cfg now s).1.clients a = some c ∧
      (a, collect_state s) ∈ (broadcast_state cfg now s).2) ∧
    (broadcast_state cfg now (broadcast_state cfg now s).1).1.clients =
      (broadcast_state cfg now s).1.clients := by
  refine ⟨?_, ?_, ?_⟩
  · intro a c hmem hold
    have hfil : (a, c) ∈ s.clients.filter fun ac =>
        decide (now - ac.2.last_seen > cfg.clientTimeout) :=
      List.mem_filter.mpr ⟨hmem, by simpa using hold⟩
    constructor
    · rw [broadcast_state_clients]
      exact foldl_aerase_lookup_mem _ s.clients a hnd
        (List.mem_map.mpr ⟨(a, c), hfil, rfl⟩)
    · intro snap hsnap
      rw [broadcast_state_sends] at hsnap
      rcases List.mem_map.mp hsnap with ⟨ac, hac, hfst⟩
      have hac2 := List.mem_filter.mp hac
      have h1 : alookup s.clients a = some c := alookup_of_mem_nodup _ _ _ hmem hnd
      have hax : ac.1 = a := congrArg Prod.fst hfst
      have h2 : alookup s.clients a = some ac.2 := by
        rw [← hax]
        exact alookup_of_mem_nodup _ _ _ (by simpa using hac2.1) hnd
      have hceq : c = ac.2 := by
        have := h1.symm.trans h2
        injection this
      have : ¬ now - ac.2.last_seen > cfg.clientTimeout := by simpa using hac2.2
      exact this (hceq ▸ hold)
  · intro a c hmem hlive
    have hnotin : a ∉ ((s.clients.filter fun ac =>
        decide (now - ac.2.last_seen > cfg.clientTimeout)).map Prod.fst) := by
      intro hin
      rcases List.mem_map.mp hin with ⟨ac, hac, hfst⟩
      have hac2 := List.mem_filter.mp hac
      have h1 : alookup s.clients a = some c := alookup_of_mem_nodup _ _ _ hmem hnd
      have h2 : alookup s.clients a = some ac.2 := by
        rw [← hfst]
        exact alookup_of_mem_nodup _ _ _ (by simpa using hac2.1) hnd
      have hceq : c = ac.2 := by
        have := h1.symm.trans h2
        injection this
      exact hlive (hceq ▸ (by simpa using hac2.2))
    constructor
    · rw [broadcast_state_clients, foldl_aerase_lookup_not_mem _ s.clients a hnotin]
      exact alookup_of_mem_nodup _ _ _ hmem hnd
    · rw [broadcast_state_sends]
      exact List.mem_map.mpr
        ⟨(a, c), List.mem_filter.mpr ⟨hmem, by simpa using hlive⟩, rfl⟩
  · have hclients : (broadcast_state cfg now s).1.clients =
        s.clients.filter fun ac =>
          !decide (now - ac.2.last_seen > cfg.clientTimeout) := by
      rw [broadcast_state_clients]
      exact foldl_aerase_filter _ s.clients hnd
    rw [broadcast_state_clients cfg now (broadcast_state cfg now s).1, hclients]
    have hempty : ((s.clients.filter fun ac =>
          !decide (now - ac.2.last_seen > cfg.clientTimeout)).filter fun ac =>
        decide (now - ac.2.last_seen > cfg.clientTimeout)) = [] := by
      refine List.filter_eq_nil_iff.mpr ?_
      intro ac hac
      simpa using (List.mem_filter.mp hac).2
    rw [hempty]
    rfl

/-- C2: input from an unregistered sender or with a mismatched team is dropped
with no state change; accepted input leaves tanks untouched, refreshes the
session's last-seen time, leaves other teams' buffers alone, and for each
named tank identifier overwrites the buffer entry with exactly the completed
seven-boolean record (unnamed identifiers keep their previous entry). -/
theorem handle_input_spec (now : ℚ) (msg : InputMsg) (addr : Address)
    (s : ServerState) :
    (alookup s.clients addr = none → handle_input now msg addr s = s) ∧
    (∀ client, alookup s.clients addr = some client →
      msg.team ≠ some client.team → handle_input now msg addr s = s) ∧
    (∀ client, alookup s.clients addr = some client →
      msg.team = some client.team →
      (handle_input now msg addr s).team_tanks = s.team_tanks ∧
      (handle_input now msg addr s).clients =
        aset s.clients addr { client with last_seen := now } ∧
      (∀ team, team ≠ client.team →
        alookup (handle_input now msg addr s).controls team =
          alookup s.controls team) ∧
      ∃ tc1, alookup (handle_input now msg addr s).controls client.team = some tc1 ∧
        (∀ tid cm, (msg.commands.map Prod.fst).Nodup → (tid, cm) ∈ msg.commands →
          alookup tc1 tid = some cm.complete) ∧
        (∀ tid, tid ∉ msg.commands.map Prod.fst →
          alookup tc1 tid =
            alookup ((alookup s.controls client.team).getD []) tid)) := by
  refine ⟨?_, ?_, ?_⟩
  · intro h
    simp [handle_input, h]
  · intro client hc hne
    simp [handle_input, hc, hne]
  · intro client hc hteam
    have hcond : ¬ (msg.team ≠ some client.team) := by simp [hteam]
    have hres : handle_input now msg addr s =
        { s with
            controls := aset (asetdefault s.controls client.team [])
              client.team
              (msg.commands.foldl (fun tc kc => aset tc kc.1 kc.2.complete)
                ((alookup (asetdefault s.controls client.team [])
                    client.team).getD [])),
            clients := aset s.clients addr { client with last_seen := now } } := by
      simp [handle_input, hc, hcond]
    have htc0 : (alookup (asetdefault s.controls client.team
          ([] : List (String × Control))) client.team).getD [] =
        (alookup s.controls client.team).getD [] := by
      rw [alookup_asetdefault_self]
      cases alookup s.controls client.team <;> rfl
    refine ⟨by rw [hres], by rw [hres], ?_, ?_⟩
    · intro team hne
      rw [hres]
      show alookup (aset (asetdefault s.controls client.team []) client.team _)
        team = alookup s.controls team
      rw [alookup_aset, if_neg hne, alookup_asetdefault_ne _ _ _ _ hne]
    · rw [hres]
      refine ⟨msg.commands.foldl (fun tc kc => aset tc kc.1 kc.2.complete)
          ((alookup (asetdefault s.controls client.team
            ([] : List (String × Control))) client.team).getD []), ?_, ?_, ?_⟩
      · show alookup (aset (asetdefault s.controls client.team []) client.team _)
          client.team = _
        rw [alookup_aset, if_pos rfl]
      · intro tid cm hnd hmem
        exact alookup_foldl_aset_of_mem ControlMsg.complete msg.commands _ tid cm
          hnd hmem
      · intro tid hnot
        rw [alookup_foldl_aset_not_mem ControlMsg.complete msg.commands _ tid hnot,
          htc0]

/-- C4: a join request naming an unknown team is answered with an error record
and changes nothing; a known team's session is created or replaced under the
sender's address and answered with that team's full identifier list; the
initial roster has exactly the two teams. -/
theorem handle_join_spec (now : ℚ) (msg : JoinMsg) (addr : Address)
    (s : ServerState) :
    (alookup s.team_tanks (msg.team.getD "player") = none →
      handle_join now msg addr s =
        (s, JoinReply.error ("unknown team " ++ msg.team.getD "player"))) ∧
    (∀ tanks, alookup s.team_tanks (msg.team.getD "player") = some tanks →
      handle_join now msg addr s =
        ({ s with
            clients := aset s.clients addr ⟨addr, msg.team.getD "player", now⟩ },
          JoinReply.joined (msg.team.getD "player")
            (tanks.map (·.identifier)))) ∧
    (∀ cfg : Config, (init_server cfg).team_tanks.map Prod.fst =
      ["player", "enemy"]) := by
  refine ⟨?_, ?_, fun _ => rfl⟩
  · intro h
    simp [handle_join, h]
  · intro tanks h
    simp [handle_join, h]

/-- C10: the sweep touches only the session registry (tanks and command
buffer unchanged); join, control application and world update never change
the command buffer, input never removes an entry (it only overwrites); and
the tanks produced by control application are independent of the session
registry, so an evicted client's last buffered command keeps driving its
tanks. -/
theorem control_buffer_persistence (cfg : Config) (O : Oracle) (now dt : ℚ)
    (msgJ : JoinMsg) (msgI : InputMsg) (addr : Address) (s : ServerState) :
    ((broadcast_state cfg now s).1.team_tanks = s.team_tanks ∧
      (broadcast_state cfg now s).1.controls = s.controls) ∧
    (handle_join now msgJ addr s).1.controls = s.controls ∧
    (handle_join now msgJ addr s).1.team_tanks = s.team_tanks ∧
    (apply_controls cfg O dt s).controls = s.controls ∧
    (update_world cfg dt s).controls = s.controls ∧
    (∀ team tc tid c, alookup s.controls team = some tc →
      alookup tc tid = some c →
      ∃ tc2 c2, alookup (handle_input now msgI addr s).controls team = some tc2 ∧
        alookup tc2 tid = some c2) ∧
    (∀ cl1 cl2 : List (Address × ClientInfo),
      (apply_controls cfg O dt { s with clients := cl1 }).team_tanks =
        (apply_controls cfg O dt { s with clients := cl2 }).team_tanks) := by
  have hjoin : (handle_join now msgJ addr s).1.controls = s.controls ∧
      (handle_join now msgJ addr s).1.team_tanks = s.team_tanks := by
    cases h : alookup s.team_tanks (msgJ.team.getD "player") with
    | none => simp [handle_join, h]
    | some tanks => simp [handle_join, h]
  refine ⟨⟨rfl, rfl⟩, hjoin.1, hjoin.2, rfl, rfl, ?_, fun _ _ => rfl⟩
  intro team tc tid c htc htid
  cases hc : alookup s.clients addr with
  | none =>
      simp only [handle_input, hc]
      exact ⟨tc, c, htc, htid⟩
  | some client =>
      by_cases hteam : msgI.team ≠ some client.team
      · simp only [handle_input, hc, if_pos hteam]
        exact ⟨tc, c, htc, htid⟩
      · simp only [handle_input, hc, if_neg hteam]
        by_cases he : team = client.team
        · subst he
          rw [alookup_aset, if_pos rfl]
          have htc0 : alookup (asetdefault s.controls client.team
                ([] : List (String × Control))) client.team = some tc := by
            rw [alookup_asetdefault_self, htc]
            rfl
          have hsome : (alookup ((alookup (asetdefault s.controls client.team
              ([] : List (String × Control))) client.team).getD []) tid).isSome := by
            rw [htc0]
            simp [htid]
          have hfold := alookup_foldl_aset_isSome ControlMsg.complete
            msgI.commands _ tid hsome
          rcases Option.isSome_iff_exists.mp hfold with ⟨c2, hc2⟩
          exact ⟨_, c2, rfl, hc2⟩
        · rw [alookup_aset, if_neg he, alookup_asetdefault_ne _ _ _ _ he]
          exact ⟨tc, c, htc, htid⟩

/-- Sample sender address used by concrete witnesses. -/
def addrW : Address := ("127.0.0.1", 40000)

/-- Second sample address used by concrete witnesses. -/
def addrW2 : Address := ("10.0.0.2", 50000)

/-- Sample session that will be stale at time 100 (last seen at 0). -/
def clientW : ClientInfo := ⟨addrW, "player", 0⟩

/-- Sample session still live at time 100 (last seen at 95). -/
def clientLiveW : ClientInfo := ⟨addrW2, "enemy", 95⟩

/-- Sample server state with one registered session. -/
def sW : ServerState := { init_server cfgW with clients := [(addrW, clientW)] }

/-- Sample server state with one stale and one live session. -/
def sB : ServerState :=
  { init_server cfgW with clients := [(addrW, clientW), (addrW2, clientLiveW)] }

/-- Sample input message: fire command for one tank, all other intents
omitted. -/
def msgW : InputMsg :=
  { team := some "player", commands := [("player_0", { fire := some true })] }

/-- C2 witness: the same input message is dropped from an unregistered
address, and from the registered address it refreshes the session's
last-seen time. -/
theorem handle_input_spec_witness :
    handle_input 5 msgW ("10.0.0.9", 1) sW = sW ∧
    (handle_input 5 msgW addrW sW).clients =
      aset sW.clients addrW { clientW with last_seen := 5 } := by
  have h := handle_input_spec 5 msgW ("10.0.0.9", 1) sW
  have h2 := handle_input_spec 5 msgW addrW sW
  exact ⟨h.1 (by decide), (h2.2.2 clientW (by decide) rfl).2.1⟩

/-- C3 witness: at time 100 against a 10-second timeout, the session last
seen at 0 is evicted without a send, the session last seen at 95 receives
the snapshot and stays, and a repeated sweep changes nothing. -/
theorem broadcast_sweep_spec_witness :
    (alookup (broadcast_state cfgW 100 sB).1.clients addrW = none ∧
      ∀ snap, (addrW, snap) ∉ (broadcast_state cfgW 100 sB).2) ∧
    (alookup (broadcast_state cfgW 100 sB).1.clients addrW2 = some clientLiveW ∧
      (addrW2, collect_state sB) ∈ (broadcast_state cfgW 100 sB).2) ∧
    (broadcast_state cfgW 100 (broadcast_state cfgW 100 sB).1).1.clients =
      (broadcast_state cfgW 100 sB).1.clients := by
  have h := broadcast_sweep_spec cfgW 100 sB (by decide)
  have hstale : (100 : ℚ) - clientW.last_seen > cfgW.clientTimeout := by
    norm_num [clientW, cfgW]
  have hlive : ¬ (100 : ℚ) - clientLiveW.last_seen > cfgW.clientTimeout := by
    norm_num [clientLiveW, cfgW]
  exact ⟨h.1 addrW clientW (by decide) hstale,
    ⟨(h.2.1 addrW2 clientLiveW (by decide) hlive).1,
      (h.2.1 addrW2 clientLiveW (by decide) hlive).2⟩, h.2.2⟩

/-- Enemy roster of the sample initial server. -/
def enemyTanksW : List Tank :=
  (alookup (init_server cfgW).team_tanks "enemy").getD []

/-- C4 witness: joining team "alien" yields the error reply and leaves the
state untouched; joining team "enemy" registers the session and is answered
with all five enemy identifiers. -/
theorem handle_join_spec_witness :
    handle_join 1 { team := some "alien" } addrW (init_server cfgW) =
      (init_server cfgW, JoinReply.error ("unknown team " ++ "alien")) ∧
    handle_join 1 { team := some "enemy" } addrW (init_server cfgW) =
      ({ init_server cfgW with
          clients := aset (init_server cfgW).clients addrW ⟨addrW, "enemy", 1⟩ },
        JoinReply.joined "enemy" (enemyTanksW.map (·.identifier))) := by
  have h := handle_join_spec 1 { team := some "alien" } addrW (init_server cfgW)
  have h2 := handle_join_spec 1 { team := some "enemy" } addrW (init_server cfgW)
  exact ⟨h.1 (by decide), h2.2.1 enemyTanksW rfl⟩

/-- A buffered fire command used by the C10 witness. -/
def ctlFire : Control := { Control.idle with fire := true }

/-- Sample state whose player buffer holds a fire command for one tank. -/
def sC : ServerState :=
  { sB with controls := [("player", [("player_0", ctlFire)]), ("enemy", [])] }

/-- C10 witness: after an accepted input, the previously buffered entry for
the named tank is still present (overwritten, never removed). -/
theorem control_buffer_persistence_witness :
    ∃ tc2 c2,
      alookup (handle_input 5 msgW addrW sC).controls "player" = some tc2 ∧
      alookup tc2 "player_0" = some c2 :=
  (control_buffer_persistence cfgW oracleW 5 (1/2) { team := some "player" }
      msgW addrW sC).2.2.2.2.2.1 "player" [("player_0", ctlFire)] "player_0"
    ctlFire rfl rfl

/-- Squared Euclidean distance, the targeting key of
`AITankClient._select_target` (`(enemy.x - fx) ** 2 + (enemy.y - fy) ** 2`). -/
def sqDist (fx fy : ℚ) (enemy : TankState) : ℚ :=
  (enemy.x - fx) ^ 2 + (enemy.y - fy) ^ 2

/-- Python's `min` with a key: scan left to right, replacing the best element
only when the key is strictly smaller, so ties keep the earliest element. -/
def minByKey {α : Type} (key : α → ℚ) : α → List α → α
  | best, [] => best
  | best, x :: rest =>
      if key x < key best then minByKey key x rest else minByKey key best rest

/-- `AITankClient._select_target`: the enemy minimizing squared distance to
the friendly tank (`min` raises on an empty list, modelled as `none`). -/
def select_target (friendly : TankState) (enemies : List TankState) :
    Option TankState :=
  match enemies with
  | [] => none
  | e :: rest => some (minByKey (sqDist friendly.x friendly.y) e rest)

/-- Desired bearing toward the target:
`degrees(atan2(dy, dx)) % 360` in `_compute_command`. -/
def desired_angle (O : Oracle) (friendly target : TankState) : ℚ :=
  pymod (O.atan2Deg (target.y - friendly.y) (target.x - friendly.x)) 360

/-- Signed shortest angular error of the turret:
`(desired - turret_angle + 540) % 360 - 180`. -/
def turret_error (O : Oracle) (friendly target : TankState) : ℚ :=
  pymod (desired_angle O friendly target - friendly.turret_angle + 540) 360 - 180

/-- Signed shortest angular error of the hull:
`(desired - angle + 540) % 360 - 180`. -/
def hull_error (O : Oracle) (friendly target : TankState) : ℚ :=
  pymod (desired_angle O friendly target - friendly.angle + 540) 360 - 180

/-- `AITankClient._compute_command`: all-false record, one turret action
(right / left / fire by the ±5° deadband), then a hull rotation outside the
±10° deadband. -/
def compute_command (O : Oracle) (friendly target : TankState) : Control :=
  let angle_diff := turret_error O friendly target
  let hull_diff := hull_error O friendly target
  let c1 :=
    if angle_diff > 5 then { Control.idle with turret_right := true }
    else if angle_diff < -5 then { Control.idle with turret_left := true }
    else { Control.idle with fire := true }
  if hull_diff > 10 then { c1 with rotate_right := true }
  else if hull_diff < -10 then { c1 with rotate_left := true }
  else c1

/-- Scan of `minByKey`: the result is an element of `best :: l`, its key is a
lower bound, and every element left of it has a strictly larger key (ties keep
the earliest). -/
theorem minByKey_spec {α : Type} (key : α → ℚ) (best : α) (l : List α) :
    ∃ l1 l2, best :: l = l1 ++ minByKey key best l :: l2 ∧
      (∀ y ∈ l1, key (minByKey key best l) < key y) ∧
      (∀ y ∈ best :: l, key (minByKey key best l) ≤ key y) := by
  induction l generalizing best with
  | nil =>
      refine ⟨[], [], rfl, by simp, ?_⟩
      intro y hy
      rcases List.mem_cons.mp hy with rfl | hy2
      · exact le_refl _
      · simp at hy2
  | cons x rest ih =>
      by_cases hlt : key x < key best
      · obtain ⟨l1, l2, hdec, hstrict, hle⟩ := ih x
        rw [show minByKey key best (x :: rest) = minByKey key x rest by
          simp [minByKey, hlt]]
        refine ⟨best :: l1, l2, ?_, ?_, ?_⟩
        · rw [List.cons_append, ← hdec]
        · intro y hy
          rcases List.mem_cons.mp hy with rfl | hy2
          · exact lt_of_le_of_lt (hle x (List.mem_cons_self x rest)) hlt
          · exact hstrict y hy2
        · intro y hy
          rcases List.mem_cons.mp hy with rfl | hy2
          · exact le_of_lt (lt_of_le_of_lt (hle x (List.mem_cons_self x rest)) hlt)
          · exact hle y hy2
      · obtain ⟨l1, l2, hdec, hstrict, hle⟩ := ih best
        rw [show minByKey key best (x :: rest) = minByKey key best rest by
          simp [minByKey, hlt]]
        cases l1 with
        | nil =>
            simp only [List.nil_append] at hdec
            injection hdec with h1 h2
            refine ⟨[], x :: rest, ?_, by simp, ?_⟩
            · rw [List.nil_append, ← h1]
            · intro y hy
              rcases List.mem_cons.mp hy with rfl | hy2
              · rw [← h1]
              · rcases List.mem_cons.mp hy2 with rfl | hy3
                · rw [← h1]
                  exact le_of_not_lt hlt
                · exact hle y (List.mem_cons_of_mem best hy3)
        | cons b l1t =>
            simp only [List.cons_append] at hdec
            injection hdec with h1 h2
            refine ⟨best :: x :: l1t, l2, ?_, ?_, ?_⟩
            · rw [List.cons_append, List.cons_append, ← h2]
            · intro y hy
              have hmb : key (minByKey key best rest) < key best := by
                have := hstrict b (List.mem_cons_self b l1t)
                rwa [← h1] at this
              rcases List.mem_cons.mp hy with rfl | hy2
              · exact hmb
              · rcases List.mem_cons.mp hy2 with rfl | hy3
                · exact lt_of_lt_of_le hmb (le_of_not_lt hlt)
                · exact hstrict y (List.mem_cons_of_mem b hy3)
            · intro y hy
              have hmb : key (minByKey key best rest) ≤ key best :=
                hle best (List.mem_cons_self best rest)
              rcases List.mem_cons.mp hy with rfl | hy2
              · exact hmb
              · rcases List.mem_cons.mp hy2 with rfl | hy3
                · exact le_trans hmb (le_of_not_lt hlt)
                · exact hle y (List.mem_cons_of_mem best hy3)

/-- Componentwise description of `_compute_command` used to settle the
deadband claims. -/
theorem compute_command_eq (O : Oracle) (friendly target : TankState) :
    compute_command O friendly target =
      { move_forward := false, move_backward := false,
        rotate_left := decide (hull_error O friendly target < -10) &&
          !decide (hull_error O friendly target > 10),
        rotate_right := decide (hull_error O friendly target > 10),
        turret_left := decide (turret_error O friendly target < -5) &&
          !decide (turret_error O friendly target > 5),
        turret_right := decide (turret_error O friendly target > 5),
        fire := !decide (turret_error O friendly target > 5) &&
          !decide (turret_error O friendly target < -5) } := by
  unfold compute_command
  by_cases h1 : turret_error O friendly target > 5 <;>
    by_cases h2 : turret_error O friendly target < -5 <;>
      by_cases h3 : hull_error O friendly target > 10 <;>
        by_cases h4 : hull_error O friendly target < -10 <;>
          simp [Control.idle, h1, h2, h3, h4]

/-- C5: target selection returns the enemy of minimal squared distance with
ties resolved to the earliest in encounter order, and the emitted command
fires (with no turret rotation) exactly inside the ±5° turret deadband,
rotates the turret toward the target outside it, rotates the hull only
outside its ±10° deadband, and never moves. -/
theorem ai_client_spec (O : Oracle) (friendly target : TankState)
    (enemies : List TankState) :
    (enemies ≠ [] →
      ∃ chosen l1 l2, select_target friendly enemies = some chosen ∧
        enemies = l1 ++ chosen :: l2 ∧
        (∀ y ∈ l1, sqDist friendly.x friendly.y chosen <
          sqDist friendly.x friendly.y y) ∧
        (∀ y ∈ enemies, sqDist friendly.x friendly.y chosen ≤
          sqDist friendly.x friendly.y y)) ∧
    ((compute_command O friendly target).fire = true ↔
      -5 ≤ turret_error O friendly target ∧ turret_error O friendly target ≤ 5) ∧
    ((compute_command O friendly target).turret_right = true ↔
      turret_error O friendly target > 5) ∧
    ((compute_command O friendly target).turret_left = true ↔
      turret_error O friendly target < -5) ∧
    ((compute_command O friendly target).rotate_right = true ↔
      hull_error O friendly target > 10) ∧
    ((compute_command O friendly target).rotate_left = true ↔
      hull_error O friendly target < -10) ∧
    (compute_command O friendly target).move_forward = false ∧
    (compute_command O friendly target).move_backward = false := by
  refine ⟨?_, ?_, ?_, ?_, ?_, ?_, ?_, ?_⟩
  · intro hne
    match enemies with
    | [] => exact absurd rfl hne
    | e :: rest =>
        obtain ⟨l1, l2, hdec, hstrict, hle⟩ :=
          minByKey_spec (sqDist friendly.x friendly.y) e rest
        exact ⟨minByKey (sqDist friendly.x friendly.y) e rest, l1, l2, rfl,
          hdec, hstrict, fun y hy => hle y (hdec ▸ hy)⟩
  · rw [compute_command_eq]
    simp only [Bool.and_eq_true, Bool.not_eq_true', decide_eq_false_iff_not,
      not_lt]
    constructor
    · rintro ⟨ha, hb⟩
      exact ⟨hb, ha⟩
    · rintro ⟨ha, hb⟩
      exact ⟨hb, ha⟩
  · rw [compute_command_eq]
    simp
  · rw [compute_command_eq]
    simp only [Bool.and_eq_true, Bool.not_eq_true', decide_eq_true_eq,
      decide_eq_false_iff_not, not_lt]
    constructor
    · rintro ⟨ha, _⟩
      exact ha
    · intro ha
      exact ⟨ha, by linarith⟩
  · rw [compute_command_eq]
    simp
  · rw [compute_command_eq]
    simp only [Bool.and_eq_true, Bool.not_eq_true', decide_eq_true_eq,
      decide_eq_false_iff_not, not_lt]
    constructor
    · rintro ⟨ha, _⟩
      exact ha
    · intro ha
      exact ⟨ha, by linarith⟩
  · rw [compute_command_eq]
  · rw [compute_command_eq]

/-- Sample friendly AI tank at the origin with both angles 0. -/
def friendlyW : TankState :=
  { identifier := "enemy_0", team := "enemy", x := 0, y := 0, angle := 0,
    turret_angle := 0, color := (200, 60, 60), turret_color := (200, 60, 60) }

/-- Sample enemy at (10, 0). -/
def enemyFar : TankState :=
  { identifier := "player_0", team := "player", x := 10, y := 0, angle := 90,
    turret_angle := 90, color := (30, 120, 60), turret_color := (220, 220, 220) }

/-- Sample enemy at (3, 0). -/
def enemyNear : TankState :=
  { identifier := "player_1", team := "player", x := 3, y := 0, angle := 90,
    turret_angle := 90, color := (30, 120, 60), turret_color := (220, 220, 220) }

/-- C5 witness: with enemies at (10,0) and (3,0) the nearer one is selected,
and with the target exactly on the turret bearing (error 0°) the command
fires instead of rotating. -/
theorem ai_client_spec_witness :
    (∃ chosen l1 l2,
      select_target friendlyW [enemyFar, enemyNear] = some chosen ∧
      [enemyFar, enemyNear] = l1 ++ chosen :: l2 ∧
      (∀ y ∈ l1, sqDist friendlyW.x friendlyW.y chosen <
        sqDist friendlyW.x friendlyW.y y) ∧
      (∀ y ∈ [enemyFar, enemyNear], sqDist friendlyW.x friendlyW.y chosen ≤
        sqDist friendlyW.x friendlyW.y y)) ∧
    select_target friendlyW [enemyFar, enemyNear] = some enemyNear ∧
    turret_error oracleW friendlyW enemyNear = 0 ∧
    (compute_command oracleW friendlyW enemyNear).fire = true ∧
    (compute_command oracleW friendlyW enemyNear).turret_left = false ∧
    (compute_command oracleW friendlyW enemyNear).turret_right = false := by
  refine ⟨(ai_client_spec oracleW friendlyW enemyNear [enemyFar, enemyNear]).1
    (by simp), ?_, ?_, ?_, ?_, ?_⟩
  · with_unfolding_all decide
  · with_unfolding_all decide
  · with_unfolding_all decide
  · with_unfolding_all decide
  · with_unfolding_all decide

end TankSim
